import Mathlib

/-!
Verification development for the filebase_api repository.

The repository ships usage examples (`public/index.code.py` route-source
files, `webserver.py` bootstrap) and packaging (`setup.py`).  The routing,
binding, serialization and lifecycle core is described by the repository's
specification; definitions below that embed that core carry a doc comment
starting `Modelled from the spec:`.  Definitions for `setup.py` are
translated directly from the source.
-/

namespace FilebaseApi

/-- Modelled from the spec: the closed set of declared parameter types
(`int | bool | string | any`); the spec's `float` member is not exercised
by any observed route and is omitted from the embedding. -/
inductive PType
  | int
  | bool
  | string
  | any
  deriving DecidableEq, Repr

/-- Modelled from the spec: runtime values flowing between binder, handler
and serializer.  `vNone` embeds Python's `None`, `vTimestamp` a
timestamp-like value (epoch count), `vMap` a keyed mapping, `vOpaque` a
non-serializable value kind. -/
inductive Value
  | vInt (n : Int)
  | vStr (s : String)
  | vBool (b : Bool)
  | vNone
  | vTimestamp (t : Nat)
  | vMap (kvs : List (String × Value))
  | vOpaque (tag : String)

/-- Modelled from the spec: one declared parameter of a handler
(name, declared type, optional default value). -/
structure ParamSpec where
  name : String
  declaredType : PType
  default? : Option Value

/-- Modelled from the spec: the per-request context ("page") object,
carrying request metadata and a clock reading for the request. -/
structure RequestContext where
  requestId : Nat
  method : String
  rawParams : List (String × String)
  now : Nat
  deriving DecidableEq, Repr

/-- Modelled from the spec: a handler is called with the per-request
context and the bound user-parameter values, and either returns a value or
raises (modelled as `Except` with the exception message). -/
abbrev Handler : Type := RequestContext → List Value → Except String Value

/-- Modelled from the spec: a remote-callable function as found in a
route-source file: its name, declared user parameters (the reserved first
context parameter is not part of this list) and the callable itself. -/
structure RemoteFn where
  name : String
  parameters : List ParamSpec
  handler : Handler

/-- Modelled from the spec: a route-source file in the scanned tree: its
directory position relative to the root, whether it loads successfully,
and the remote-tagged functions it contains. -/
structure RouteFile where
  dirSegments : List String
  loadOk : Bool
  fns : List RemoteFn

/-- A normalized route path, as its slash-separated segments. -/
abbrev Path : Type := List String

/-- Modelled from the spec: immutable metadata for one remotely callable
function. -/
structure RouteDescriptor where
  path : Path
  parameters : List ParamSpec
  handler : Handler

/-- Modelled from the spec: errors that abort discovery. -/
inductive DiscoveryError
  | loadFailure (dirSegments : List String)
  | pathCollision
  deriving DecidableEq, Repr

/-- Modelled from the spec: derive the route path from the file's
directory position relative to root combined with the function's own name,
unless the function name matches the configured default/index name, in
which case the directory path alone is used. -/
def derivePath (defaultName : String) (dirSegments : List String) (fnName : String) : Path :=
  if fnName = defaultName then dirSegments else dirSegments ++ [fnName]

/-- Modelled from the spec: the Route Descriptor built for one discovered
function. -/
def mkDescriptor (defaultName : String) (f : RouteFile) (fn : RemoteFn) : RouteDescriptor :=
  { path := derivePath defaultName f.dirSegments fn.name
    parameters := fn.parameters
    handler := fn.handler }

/-- Modelled from the spec: load one route-source file and extract its
route entries; a file that fails to load aborts discovery. -/
def discoverFile (defaultName : String) (f : RouteFile) :
    Except DiscoveryError (List (Path × RouteDescriptor)) :=
  if f.loadOk then
    Except.ok (f.fns.map fun fn => (derivePath defaultName f.dirSegments fn.name,
      mkDescriptor defaultName f fn))
  else
    Except.error (DiscoveryError.loadFailure f.dirSegments)

/-- Modelled from the spec: scan the whole tree, collecting entries of all
files; the first load failure aborts the scan. -/
def scanEntries (defaultName : String) (files : List RouteFile) :
    Except DiscoveryError (List (Path × RouteDescriptor)) :=
  match files with
  | [] => Except.ok []
  | f :: rest =>
    match discoverFile defaultName f with
    | Except.error e => Except.error e
    | Except.ok es =>
      match scanEntries defaultName rest with
      | Except.error e => Except.error e
      | Except.ok rs => Except.ok (es ++ rs)

/-- Modelled from the spec: the Route Table, a mapping from path to Route
Descriptor, built once per scan and immutable. -/
abbrev RouteTable : Type := List (Path × RouteDescriptor)

/-- Modelled from the spec: exact-match lookup on the normalized path. -/
def RouteTable.lookup (t : RouteTable) (p : Path) : Option RouteDescriptor :=
  match t with
  | [] => none
  | (q, d) :: rest => if q = p then some d else RouteTable.lookup rest p

/-- Modelled from the spec: build a complete Route Table or fail; two
functions resolving to the same path fail with a collision error, so no
partially built table is ever produced. -/
def buildRouteTable (defaultName : String) (files : List RouteFile) :
    Except DiscoveryError RouteTable :=
  match scanEntries defaultName files with
  | Except.error e => Except.error e
  | Except.ok entries =>
    if (entries.map Prod.fst).Nodup then Except.ok entries
    else Except.error DiscoveryError.pathCollision

/-- All derived paths of the tree, in scan order. -/
def treePaths (defaultName : String) (files : List RouteFile) : List Path :=
  files.flatMap fun f => f.fns.map fun fn => derivePath defaultName f.dirSegments fn.name

/-- All function names of the tree, in scan order. -/
def treeNames (files : List RouteFile) : List String :=
  files.flatMap fun f => f.fns.map RemoteFn.name

/-- Total number of remote-callable functions in the tree. -/
def treeSize (files : List RouteFile) : Nat :=
  (files.map fun f => f.fns.length).sum

/-! ## Argument binding -/

/-- Modelled from the spec: a binding failure names the offending
parameter and the reason. -/
inductive BindError
  | missingParameter (name : String)
  | typeCoercion (name : String) (expected : PType) (raw : String)
  deriving DecidableEq, Repr

/-- First value for a key in a flat key-value parameter set. -/
def findKey (kvs : List (String × String)) (k : String) : Option String :=
  match kvs with
  | [] => none
  | (k₀, v) :: rest => if k₀ = k then some v else findKey rest k

/-- Modelled from the spec: the canonical boolean literal set. -/
def parseBoolLit (raw : String) : Option Bool :=
  if raw = "true" then some true
  else if raw = "false" then some false
  else none

/-- Modelled from the spec: the fixed coercion table for present raw
values (string to int, string to bool via the canonical literal set,
pass-through for string/any). -/
def coerce (t : PType) (raw : String) : Option Value :=
  match t with
  | PType.string => some (Value.vStr raw)
  | PType.any => some (Value.vStr raw)
  | PType.int => (raw.toInt?).map Value.vInt
  | PType.bool => (parseBoolLit raw).map Value.vBool

/-- Modelled from the spec: the Argument Binder.  Each declared parameter
without a default is required; absence of a parameter with a default
substitutes the default without coercion; present values are coerced to
the declared type; unknown request keys are ignored. -/
def bindParams (params : List ParamSpec) (req : List (String × String)) :
    Except BindError (List Value) :=
  match params with
  | [] => Except.ok []
  | p :: rest =>
    match findKey req p.name with
    | some raw =>
      match coerce p.declaredType raw with
      | none => Except.error (BindError.typeCoercion p.name p.declaredType raw)
      | some v =>
        match bindParams rest req with
        | Except.error e => Except.error e
        | Except.ok vs => Except.ok (v :: vs)
    | none =>
      match p.default? with
      | some d =>
        match bindParams rest req with
        | Except.error e => Except.error e
        | Except.ok vs => Except.ok (d :: vs)
      | none => Except.error (BindError.missingParameter p.name)

/-! ## Response serialization -/

/-- Modelled from the spec: the wire payload shapes. -/
inductive Json
  | jNull
  | jStr (s : String)
  | jInt (n : Int)
  | jBool (b : Bool)
  | jObj (kvs : List (String × Json))

/-- Map a decimal digit (0..9) to its character. -/
def digitChar (d : Nat) : Char := Char.ofNat (48 + d)

/-- Map a decimal digit character back to its value. -/
def charDigit (c : Char) : Nat := c.toNat - 48

/-- Whether a character is a decimal digit. -/
def isDigitCh (c : Char) : Bool := 48 ≤ c.toNat && c.toNat ≤ 57

/-- Modelled from the spec: the fixed canonical textual format for
timestamp-like values — the decimal rendering of the epoch count. -/
def encodeTimestamp (t : Nat) : String :=
  if t = 0 then "0"
  else String.mk (((Nat.digits 10 t).map digitChar).reverse)

/-- Modelled from the spec: the client-side decoder for the canonical
timestamp format. -/
def decodeTimestamp (s : String) : Option Nat :=
  if s.data = [] then none
  else if s.data.all isDigitCh then
    some (Nat.ofDigits 10 ((s.data.map charDigit).reverse))
  else none

/-- Modelled from the spec: serialization failure for non-serializable
value kinds. -/
inductive SerializationError
  | unsupported (tag : String)
  deriving DecidableEq, Repr

/-- Modelled from the spec: the Response Serializer.  Primitives become
literal payloads, timestamps the canonical text, mappings structured
objects; non-serializable kinds fail with `SerializationError`. -/
def serialize (v : Value) : Except SerializationError Json :=
  match v with
  | Value.vInt n => Except.ok (Json.jInt n)
  | Value.vStr s => Except.ok (Json.jStr s)
  | Value.vBool b => Except.ok (Json.jBool b)
  | Value.vNone => Except.ok Json.jNull
  | Value.vTimestamp t => Except.ok (Json.jStr (encodeTimestamp t))
  | Value.vMap kvs => (serializeMap kvs).map Json.jObj
  | Value.vOpaque tag => Except.error (SerializationError.unsupported tag)
where
  serializeMap : List (String × Value) → Except SerializationError (List (String × Json))
    | [] => Except.ok []
    | (k, v) :: rest =>
      match serialize v with
      | Except.error e => Except.error e
      | Except.ok j =>
        match serializeMap rest with
        | Except.error e => Except.error e
        | Except.ok js => Except.ok ((k, j) :: js)

/-! ## Request dispatch -/

/-- Modelled from the spec: an inbound request (method, normalized path,
flat key-value parameter set, plus a transport-assigned request id and the
arrival clock reading used to stamp the fresh context). -/
structure Request where
  id : Nat
  method : String
  path : Path
  params : List (String × String)
  arrivedAt : Nat
  deriving DecidableEq, Repr

/-- Modelled from the spec: the fresh RequestContext created for one
inbound request, from that request alone. -/
def mkContext (req : Request) : RequestContext :=
  { requestId := req.id
    method := req.method
    rawParams := req.params
    now := req.arrivedAt }

/-- Modelled from the spec: outbound responses of the dispatcher. -/
inductive Response
  | notFound
  | clientError (e : BindError)
  | serverError (msg : String)
  | serializationFailure (e : SerializationError)
  | success (body : Json)

/-- Modelled from the spec: one positional argument of a handler
invocation: either the reserved context argument or a bound user value. -/
inductive Arg
  | ctx (c : RequestContext)
  | val (v : Value)

/-- The full positional argument list of a handler invocation: the
reserved first position carries the context, the rest the bound values. -/
def fullArgs (c : RequestContext) (vs : List Value) : List Arg :=
  Arg.ctx c :: vs.map Arg.val

/-- Modelled from the spec: the context and bound values the dispatcher
passes to the handler, when dispatch reaches handler invocation. -/
def dispatchInvocation (table : RouteTable) (req : Request) :
    Option (RequestContext × List Value) :=
  match RouteTable.lookup table req.path with
  | none => none
  | some d =>
    match bindParams d.parameters req.params with
    | Except.error _ => none
    | Except.ok args => some (mkContext req, args)

/-- Modelled from the spec: the Request Dispatcher.  Table miss gives a
not-found response, binding failure a client-error response, a raising
handler a server-error response, a non-serializable result a
serialization failure; otherwise the serialized result. -/
def handle (table : RouteTable) (req : Request) : Response :=
  match RouteTable.lookup table req.path with
  | none => Response.notFound
  | some d =>
    match bindParams d.parameters req.params with
    | Except.error e => Response.clientError e
    | Except.ok args =>
      match d.handler (mkContext req) args with
      | Except.error msg => Response.serverError msg
      | Except.ok v =>
        match serialize v with
        | Except.error e => Response.serializationFailure e
        | Except.ok j => Response.success j

/-- The exception message raised by the handler of a request, when
dispatch reaches the handler and it raises. -/
def handlerError (table : RouteTable) (req : Request) : Option String :=
  match RouteTable.lookup table req.path with
  | none => none
  | some d =>
    match bindParams d.parameters req.params with
    | Except.error _ => none
    | Except.ok args =>
      match d.handler (mkContext req) args with
      | Except.error msg => some msg
      | Except.ok _ => none

/-- Modelled from the spec: dispatcher-side server state; the dispatch
path owns the active (immutable) Route Table. -/
structure DispatchState where
  table : RouteTable

/-- Modelled from the spec: dispatch one request against the server
state; request handling reads the table and never mutates it. -/
def dispatchStep (st : DispatchState) (req : Request) : DispatchState × Response :=
  (st, handle st.table req)

/-- Process a batch of requests in order, threading the server state. -/
def processAll (st : DispatchState) (reqs : List Request) :
    DispatchState × List Response :=
  match reqs with
  | [] => (st, [])
  | r :: rest =>
    let (st₁, resp) := dispatchStep st r
    let (st₂, resps) := processAll st₁ rest
    (st₂, resp :: resps)

/-! ## Example route-source files (translated from the repository) -/

/-- Translated from `src/experimental/public/index.code.py`: `test(page,
msg: str)` returns `"The message: " + msg`.  Called with arguments not
matching its signature it raises, as the Python callable would. -/
def test_fn : RemoteFn :=
  { name := "test"
    parameters := [{ name := "msg", declaredType := PType.string, default? := none }]
    handler := fun _page args =>
      match args with
      | [Value.vStr m] => Except.ok (Value.vStr ("The message: " ++ m))
      | _ => Except.error "TypeError" }

/-- Translated from `src/experimental/public/index.code.py`:
`test_with_defaults(page, msg: str, other_message: str = None)` returns
the mapping of both values; `None` embeds as `Value.vNone`. -/
def test_with_defaults_fn : RemoteFn :=
  { name := "test_with_defaults"
    parameters :=
      [{ name := "msg", declaredType := PType.string, default? := none },
       { name := "other_message", declaredType := PType.string,
         default? := some Value.vNone }]
    handler := fun _page args =>
      match args with
      | [m, o] => Except.ok (Value.vMap [("msg", m), ("other_message", o)])
      | _ => Except.error "TypeError" }

/-- Translated from `src/experimental/public/index.code.py` (identical in
`src/examples/simple/public/index.code.py`): `test_interval(page, msg: str
= "No message")` returns `{"msg": msg, "server_time": datetime.now()}`;
the clock read is the per-request reading carried by the context. -/
def test_interval_fn : RemoteFn :=
  { name := "test_interval"
    parameters :=
      [{ name := "msg", declaredType := PType.string,
         default? := some (Value.vStr "No message") }]
    handler := fun page args =>
      match args with
      | [m] => Except.ok (Value.vMap [("msg", m),
          ("server_time", Value.vTimestamp page.now)])
      | _ => Except.error "TypeError" }

/-- The route-source file `public/index.code.py` of the experimental
tree, sitting at the scan root. -/
def experimentalIndexFile : RouteFile :=
  { dirSegments := [], loadOk := true
    fns := [test_fn, test_with_defaults_fn, test_interval_fn] }

/-- The experimental route tree: one index route-source file. -/
def experimentalFiles : List RouteFile := [experimentalIndexFile]

/-- The Route Table discovery builds from the experimental tree. -/
def expTable : RouteTable :=
  [(["test"], mkDescriptor "index" experimentalIndexFile test_fn),
   (["test_with_defaults"], mkDescriptor "index" experimentalIndexFile test_with_defaults_fn),
   (["test_interval"], mkDescriptor "index" experimentalIndexFile test_interval_fn)]

/-! ## Server lifecycle -/

/-- Modelled from the spec: the linear lifecycle states. -/
inductive LifecycleState
  | created
  | starting
  | running
  | stopping
  | stopped
  deriving DecidableEq, Repr

/-- Modelled from the spec: a server instance with its lifecycle state
and the ids of accepted, not yet completed requests. -/
structure ServerInstance where
  instanceId : Nat
  rootDir : String
  state : LifecycleState
  pending : List Nat
  deriving DecidableEq, Repr

/-- Modelled from the spec: failure of a `startGlobal` call made while a
global instance already runs. -/
inductive AlreadyStartedError
  | alreadyStarted
  deriving DecidableEq, Repr

/-- Modelled from the spec: process-wide state holding the at most one
global server instance. -/
structure ProcessState where
  globalInstance : Option ServerInstance
  nextId : Nat
  deriving DecidableEq, Repr

/-- Modelled from the spec: `startGlobal(rootDir)` — the sole creation
path of the process-wide instance.  With no instance present it creates
one and brings it to `running`; with an instance already present it fails
with `AlreadyStartedError` and changes nothing. -/
def startGlobal (ps : ProcessState) (rootDir : String) :
    ProcessState × Except AlreadyStartedError ServerInstance :=
  match ps.globalInstance with
  | some _ => (ps, Except.error AlreadyStartedError.alreadyStarted)
  | none =>
    let inst : ServerInstance :=
      { instanceId := ps.nextId, rootDir := rootDir
        state := LifecycleState.running, pending := [] }
    ({ globalInstance := some inst, nextId := ps.nextId + 1 }, Except.ok inst)

/-- Modelled from the spec: the externally observable lifecycle events of
a running instance — accepting a request, a request completing, the stop
request, and the listener tear-down that completes a stop. -/
inductive ServerEvent
  | accept (rid : Nat)
  | complete (rid : Nat)
  | stopRequest
  | finishStop
  deriving DecidableEq, Repr

/-- Modelled from the spec: one lifecycle transition.  Requests are
accepted only while `running`; stop is cooperative: the tear-down that
reaches `stopped` happens only once stopping and with no pending
requests left. -/
def lifecycleStep (s : ServerInstance) (e : ServerEvent) : ServerInstance :=
  match e with
  | ServerEvent.accept rid =>
    if s.state = LifecycleState.running then { s with pending := rid :: s.pending }
    else s
  | ServerEvent.complete rid => { s with pending := s.pending.erase rid }
  | ServerEvent.stopRequest =>
    if s.state = LifecycleState.running then { s with state := LifecycleState.stopping }
    else s
  | ServerEvent.finishStop =>
    if s.state = LifecycleState.stopping ∧ s.pending = [] then
      { s with state := LifecycleState.stopped }
    else s

/-- Run a trace of lifecycle events. -/
def runEvents (s : ServerInstance) (evs : List ServerEvent) : ServerInstance :=
  match evs with
  | [] => s
  | e :: rest => runEvents (lifecycleStep s e) rest

/-- Modelled from the spec: `join()` blocks until the server transitions
to `stopped`.  Along a trace of events it returns at the first point the
state is `stopped` (the index of events consumed), and never returns if
that point never comes; it performs no transition of its own. -/
def joinReturnsAt (s : ServerInstance) (evs : List ServerEvent) : Option Nat :=
  if s.state = LifecycleState.stopped then some 0
  else
    match evs with
    | [] => none
    | e :: rest => (joinReturnsAt (lifecycleStep s e) rest).map (· + 1)

/-! ## setup.py -/

/-- Translated from `src/python/setup.py`: `get_version` checks whether
`package_version.txt` exists next to `setup.py` and returns `"debug"` when
it does not, otherwise the full contents read from the file.  The
filesystem is abstracted as a partial map from file name to contents. -/
def get_version (fs : String → Option String) : String :=
  match fs "package_version.txt" with
  | none => "debug"
  | some version => version

/-! ## Theorems -/

/-- C10: `get_version` returns the string `"debug"` when
`package_version.txt` does not exist in the setup directory, and
otherwise returns exactly the full contents of that file. -/
theorem get_version_spec (fs : String → Option String) :
    (fs "package_version.txt" = none → get_version fs = "debug") ∧
    (∀ c, fs "package_version.txt" = some c → get_version fs = c) := by
  constructor
  · intro h
    simp [get_version, h]
  · intro c h
    simp [get_version, h]

theorem get_version_spec_witness :
    get_version (fun _ => none) = "debug" ∧
    get_version (fun p => if p = "package_version.txt" then some "1.2.3" else none) =
      "1.2.3" := by
  constructor
  · exact (get_version_spec (fun _ => none)).1 rfl
  · exact (get_version_spec
      (fun p => if p = "package_version.txt" then some "1.2.3" else none)).2
      "1.2.3" (by simp)

/-- C8: with no global instance present, `startGlobal` creates the single
global instance in `running` state; a subsequent call made while it is
present fails with `AlreadyStartedError`, creates no second instance, and
leaves the first instance registered and running. -/
theorem startGlobal_second_fails (ps : ProcessState) (root₁ root₂ : String)
    (h : ps.globalInstance = none) :
    ∃ inst : ServerInstance,
      (startGlobal ps root₁).2 = Except.ok inst ∧
      (startGlobal ps root₁).1.globalInstance = some inst ∧
      inst.state = LifecycleState.running ∧
      inst.rootDir = root₁ ∧
      (startGlobal (startGlobal ps root₁).1 root₂).2 =
        Except.error AlreadyStartedError.alreadyStarted ∧
      (startGlobal (startGlobal ps root₁).1 root₂).1.globalInstance = some inst := by
  obtain ⟨gi, n⟩ := ps
  cases gi with
  | some i => exact Option.noConfusion h
  | none => exact ⟨_, rfl, rfl, rfl, rfl, rfl, rfl⟩

theorem startGlobal_second_fails_witness :
    ∃ inst : ServerInstance,
      (startGlobal ⟨none, 0⟩ "/app").2 = Except.ok inst ∧
      (startGlobal ⟨none, 0⟩ "/app").1.globalInstance = some inst ∧
      inst.state = LifecycleState.running ∧
      inst.rootDir = "/app" ∧
      (startGlobal (startGlobal ⟨none, 0⟩ "/app").1 "/other").2 =
        Except.error AlreadyStartedError.alreadyStarted ∧
      (startGlobal (startGlobal ⟨none, 0⟩ "/app").1 "/other").1.globalInstance =
        some inst :=
  startGlobal_second_fails ⟨none, 0⟩ "/app" "/other" rfl

/-- C4: whenever binding succeeds, every declared parameter whose key is
absent from the request is bound to exactly its declared default value (so
in particular it had one); the default is substituted as-is, with no
coercion applied. -/
theorem bindParams_absent_gives_default (params : List ParamSpec)
    (req : List (String × String)) (args : List Value)
    (h : bindParams params req = Except.ok args) :
    List.Forall₂ (fun p a => findKey req p.name = none → p.default? = some a)
      params args := by
  induction params generalizing args with
  | nil =>
    simp [bindParams] at h
    subst h
    exact List.Forall₂.nil
  | cons p rest ih =>
    rw [bindParams] at h
    cases hk : findKey req p.name with
    | some raw =>
      simp only [hk] at h
      cases hc : coerce p.declaredType raw with
      | none =>
        simp only [hc] at h
        exact Except.noConfusion h
      | some v =>
        simp only [hc] at h
        cases hr : bindParams rest req with
        | error e =>
          simp only [hr] at h
          exact Except.noConfusion h
        | ok vs =>
          simp only [hr, Except.ok.injEq] at h
          subst h
          refine List.Forall₂.cons (fun hnone => ?_) (ih vs hr)
          rw [hnone] at hk
          cases hk
    | none =>
      simp only [hk] at h
      cases hd : p.default? with
      | some d =>
        simp only [hd] at h
        cases hr : bindParams rest req with
        | error e =>
          simp only [hr] at h
          exact Except.noConfusion h
        | ok vs =>
          simp only [hr, Except.ok.injEq] at h
          subst h
          exact List.Forall₂.cons (fun _ => hd) (ih vs hr)
      | none =>
        simp only [hd] at h
        exact Except.noConfusion h

theorem bindParams_absent_gives_default_witness :
    List.Forall₂
      (fun p a => findKey [("msg", "hi")] p.name = none → p.default? = some a)
      test_with_defaults_fn.parameters [Value.vStr "hi", Value.vNone] :=
  bindParams_absent_gives_default test_with_defaults_fn.parameters
    [("msg", "hi")] [Value.vStr "hi", Value.vNone] rfl

/-- C3: on the discovered experimental table, a request to the `test`
route that omits `msg` yields a client-error response naming `msg`
(missing parameter), and a request supplying `msg="hello"` yields a
successful response whose body reflects `"hello"`. -/
theorem test_route_msg_binding (req : Request) (hpath : req.path = ["test"]) :
    (findKey req.params "msg" = none →
      handle expTable req = Response.clientError (BindError.missingParameter "msg")) ∧
    (findKey req.params "msg" = some "hello" →
      handle expTable req = Response.success (Json.jStr "The message: hello")) := by
  constructor
  · intro h
    simp [handle, expTable, RouteTable.lookup, hpath, mkDescriptor, test_fn,
      bindParams, h]
  · intro h
    simp [handle, expTable, RouteTable.lookup, hpath, mkDescriptor, test_fn,
      bindParams, h, coerce, serialize]

theorem test_route_msg_binding_witness :
    handle expTable
      { id := 1, method := "GET", path := ["test"],
        params := [("msg", "hello")], arrivedAt := 0 } =
      Response.success (Json.jStr "The message: hello") :=
  (test_route_msg_binding
    { id := 1, method := "GET", path := ["test"],
      params := [("msg", "hello")], arrivedAt := 0 } rfl).2 rfl

/-- A concrete request to the `test` route, used to instantiate dispatch
theorems on a reachable invocation. -/
def reqCtx : Request :=
  { id := 2, method := "GET", path := ["test"],
    params := [("msg", "hello")], arrivedAt := 5 }

/-- C5: whenever dispatch reaches handler invocation, the reserved first
argument position carries the RequestContext freshly created from this
request (its id is the request's id); it is never a user-supplied value
and the binder output never occupies the first position. -/
theorem context_reserved_first (table : RouteTable) (req : Request)
    (c : RequestContext) (args : List Value)
    (h : dispatchInvocation table req = some (c, args)) :
    c = mkContext req ∧
    c.requestId = req.id ∧
    (fullArgs c args).head? = some (Arg.ctx (mkContext req)) ∧
    ∀ v : Value, (fullArgs c args).head? ≠ some (Arg.val v) := by
  unfold dispatchInvocation at h
  cases hl : RouteTable.lookup table req.path with
  | none =>
    simp only [hl] at h
    exact Option.noConfusion h
  | some d =>
    simp only [hl] at h
    cases hb : bindParams d.parameters req.params with
    | error e =>
      simp only [hb] at h
      exact Option.noConfusion h
    | ok vs =>
      simp only [hb, Option.some.injEq, Prod.mk.injEq] at h
      obtain ⟨hc, ha⟩ := h
      subst hc
      subst ha
      refine ⟨rfl, rfl, rfl, fun v hv => ?_⟩
      simp [fullArgs] at hv

theorem context_reserved_first_witness :
    mkContext reqCtx = mkContext reqCtx ∧
    (mkContext reqCtx).requestId = reqCtx.id ∧
    (fullArgs (mkContext reqCtx) [Value.vStr "hello"]).head? =
      some (Arg.ctx (mkContext reqCtx)) ∧
    ∀ v : Value,
      (fullArgs (mkContext reqCtx) [Value.vStr "hello"]).head? ≠
        some (Arg.val v) :=
  context_reserved_first expTable reqCtx (mkContext reqCtx)
    [Value.vStr "hello"] rfl

/-- Decoding a digit's character gives the digit back. -/
theorem charDigit_digitChar (d : Nat) (hd : d < 10) :
    charDigit (digitChar d) = d := by
  interval_cases d <;> decide

/-- A digit's character is a digit character. -/
theorem isDigitCh_digitChar (d : Nat) (hd : d < 10) :
    isDigitCh (digitChar d) = true := by
  interval_cases d <;> decide

/-- The canonical timestamp rendering decodes back to the timestamp. -/
theorem decode_encode (t : Nat) : decodeTimestamp (encodeTimestamp t) = some t := by
  by_cases h0 : t = 0
  · subst h0
    decide
  · have hdig : ∀ d ∈ Nat.digits 10 t, d < 10 := fun d hd =>
      Nat.digits_lt_base (by norm_num) hd
    have hne : ((Nat.digits 10 t).map digitChar).reverse ≠ [] := by
      simp [Nat.digits_ne_nil_iff_ne_zero.mpr h0]
    have hall : (((Nat.digits 10 t).map digitChar).reverse).all isDigitCh = true := by
      rw [List.all_eq_true]
      intro c hc
      rw [List.mem_reverse] at hc
      obtain ⟨d, hd, rfl⟩ := List.mem_map.mp hc
      exact isDigitCh_digitChar d (hdig d hd)
    have hmap : ((((Nat.digits 10 t).map digitChar).reverse).map charDigit).reverse
        = Nat.digits 10 t := by
      rw [List.map_reverse, List.reverse_reverse, List.map_map]
      have hcongr : ∀ d ∈ Nat.digits 10 t, (charDigit ∘ digitChar) d = id d :=
        fun d hd => charDigit_digitChar d (hdig d hd)
      rw [List.map_congr_left hcongr, List.map_id]
    have hdata : (String.mk (((Nat.digits 10 t).map digitChar).reverse)).data
        = ((Nat.digits 10 t).map digitChar).reverse := rfl
    rw [encodeTimestamp, if_neg h0, decodeTimestamp, hdata, if_neg hne, hall,
      if_pos rfl, hmap, Nat.ofDigits_digits]

/-- C6: the Response Serializer renders a timestamp-valued field in the
fixed canonical textual format, decoding that text reconstructs the
original timestamp (round-trip law), and `test_interval`'s return value
has exactly this serialized shape. -/
theorem server_time_roundtrip (m : String) (t : Nat) (page : RequestContext) :
    serialize (Value.vMap [("msg", Value.vStr m),
        ("server_time", Value.vTimestamp t)]) =
      Except.ok (Json.jObj [("msg", Json.jStr m),
        ("server_time", Json.jStr (encodeTimestamp t))]) ∧
    decodeTimestamp (encodeTimestamp t) = some t ∧
    test_interval_fn.handler page [Value.vStr m] =
      Except.ok (Value.vMap [("msg", Value.vStr m),
        ("server_time", Value.vTimestamp page.now)]) :=
  ⟨rfl, decode_encode t, rfl⟩

/-- Batch processing never changes the dispatcher state, and every
response is that of dispatching its own request against the table. -/
theorem processAll_table (st : DispatchState) (reqs : List Request) :
    (processAll st reqs).1 = st ∧
    (processAll st reqs).2 = reqs.map fun r => handle st.table r := by
  induction reqs with
  | nil => exact ⟨rfl, rfl⟩
  | cons r rest ih =>
    refine ⟨?_, ?_⟩
    · show (processAll st rest).1 = st
      exact ih.1
    · show handle st.table r :: (processAll st rest).2 = _
      rw [ih.2, List.map_cons]

/-- A route whose handler always raises, exercising dispatch-failure
containment. -/
def boom_fn : RemoteFn :=
  { name := "boom", parameters := [], handler := fun _ _ => Except.error "boom" }

/-- A one-route table whose single handler always raises. -/
def boomTable : RouteTable :=
  [(["boom"],
    mkDescriptor "index" { dirSegments := [], loadOk := true, fns := [boom_fn] } boom_fn)]

/-- A concrete request to the raising route. -/
def reqBoom : Request :=
  { id := 3, method := "GET", path := ["boom"], params := [], arrivedAt := 0 }

/-- C7: a request whose handler raises produces a server-error response;
processing any batch containing it leaves the dispatcher's Route Table
unchanged and gives every request the response it would get alone
(per-request containment). -/
theorem handler_exception_contained (st : DispatchState) (reqs : List Request)
    (req : Request) (msg : String) (_hmem : req ∈ reqs)
    (herr : handlerError st.table req = some msg) :
    handle st.table req = Response.serverError msg ∧
    (processAll st reqs).1.table = st.table ∧
    (processAll st reqs).2 = reqs.map fun r => handle st.table r := by
  refine ⟨?_, by rw [(processAll_table st reqs).1], (processAll_table st reqs).2⟩
  unfold handlerError at herr
  unfold handle
  cases hl : RouteTable.lookup st.table req.path with
  | none =>
    simp only [hl] at herr
    exact Option.noConfusion herr
  | some d =>
    simp only [hl] at herr
    cases hb : bindParams d.parameters req.params with
    | error e =>
      simp only [hb] at herr
      exact Option.noConfusion herr
    | ok args =>
      simp only [hb] at herr
      cases hh : d.handler (mkContext req) args with
      | error m =>
        simp only [hh, Option.some.injEq] at herr
        subst herr
        simp only [hb, hh]
      | ok v =>
        simp only [hh] at herr
        exact Option.noConfusion herr

theorem handler_exception_contained_witness :
    handle (DispatchState.mk boomTable).table reqBoom = Response.serverError "boom" ∧
    (processAll (DispatchState.mk boomTable) [reqBoom]).1.table =
      (DispatchState.mk boomTable).table ∧
    (processAll (DispatchState.mk boomTable) [reqBoom]).2 =
      [reqBoom].map fun r => handle (DispatchState.mk boomTable).table r :=
  handler_exception_contained (DispatchState.mk boomTable) [reqBoom] reqBoom "boom"
    (List.mem_singleton.mpr rfl) rfl

/-- The entries a full successful scan of the tree produces, in order. -/
def treeEntries (dn : String) (files : List RouteFile) : List (Path × RouteDescriptor) :=
  files.flatMap fun f => f.fns.map fun fn =>
    (derivePath dn f.dirSegments fn.name, mkDescriptor dn f fn)

/-- When every file loads, the scan succeeds with all entries. -/
theorem scanEntries_of_load (dn : String) (files : List RouteFile)
    (h : ∀ f ∈ files, f.loadOk = true) :
    scanEntries dn files = Except.ok (treeEntries dn files) := by
  induction files with
  | nil => rfl
  | cons f rest ih =>
    have hf : f.loadOk = true := h f (List.mem_cons_self f rest)
    have hr := ih fun g hg => h g (List.mem_cons_of_mem f hg)
    simp [scanEntries, discoverFile, hf, hr, treeEntries]

/-- The scan entries are keyed by the derived paths, in order. -/
theorem treeEntries_keys (dn : String) (files : List RouteFile) :
    (treeEntries dn files).map Prod.fst = treePaths dn files := by
  induction files with
  | nil => rfl
  | cons f rest ih =>
    simp only [treeEntries, treePaths, List.flatMap_cons, List.map_append,
      List.map_map] at ih ⊢
    rw [ih]
    rfl

/-- With pairwise-distinct keys, lookup resolves every member entry. -/
theorem lookup_mem_nodup (t : RouteTable) (p : Path) (d : RouteDescriptor)
    (hnd : (t.map Prod.fst).Nodup) (hmem : (p, d) ∈ t) :
    RouteTable.lookup t p = some d := by
  induction t with
  | nil => cases hmem
  | cons e rest ih =>
    obtain ⟨q, d'⟩ := e
    rw [List.map_cons, List.nodup_cons] at hnd
    rcases List.mem_cons.mp hmem with heq | hmem'
    · cases heq
      simp [RouteTable.lookup]
    · have hq : q ≠ p := by
        intro hqp
        apply hnd.1
        rw [hqp]
        exact List.mem_map.mpr ⟨(p, d), hmem', rfl⟩
      rw [RouteTable.lookup, if_neg hq]
      exact ih hnd.2 hmem'

/-- The scan yields one entry per remote function. -/
theorem length_treeEntries (dn : String) (files : List RouteFile) :
    (treeEntries dn files).length = treeSize files := by
  induction files with
  | nil => rfl
  | cons f rest ih =>
    simp only [treeEntries, treeSize, List.flatMap_cons, List.length_append,
      List.length_map, List.map_cons, List.sum_cons]
    simp only [treeEntries, treeSize] at ih
    rw [ih]

/-- Every remote function of the tree contributes its entry. -/
theorem mem_treeEntries (dn : String) (files : List RouteFile) (f : RouteFile)
    (fn : RemoteFn) (hf : f ∈ files) (hfn : fn ∈ f.fns) :
    (derivePath dn f.dirSegments fn.name, mkDescriptor dn f fn) ∈
      treeEntries dn files :=
  List.mem_flatMap.mpr ⟨f, hf, List.mem_map.mpr ⟨fn, hfn, rfl⟩⟩

/-- C1: over a valid route tree (every file loads, function names unique,
derived paths unique) with N remote functions, discovery builds a Route
Table of exactly N entries, and each function's descriptor is resolvable
by lookup on its derived path. -/
theorem discovery_complete (dn : String) (files : List RouteFile)
    (hload : ∀ f ∈ files, f.loadOk = true)
    (_hnames : (treeNames files).Nodup)
    (hpaths : (treePaths dn files).Nodup) :
    ∃ t : RouteTable,
      buildRouteTable dn files = Except.ok t ∧
      t.length = treeSize files ∧
      ∀ f ∈ files, ∀ fn ∈ f.fns,
        RouteTable.lookup t (derivePath dn f.dirSegments fn.name) =
          some (mkDescriptor dn f fn) := by
  have hscan := scanEntries_of_load dn files hload
  have hkeys : ((treeEntries dn files).map Prod.fst).Nodup := by
    rw [treeEntries_keys]
    exact hpaths
  refine ⟨treeEntries dn files, ?_, length_treeEntries dn files, ?_⟩
  · simp only [buildRouteTable, hscan]
    rw [if_pos hkeys]
  · intro f hf fn hfn
    exact lookup_mem_nodup _ _ _ hkeys (mem_treeEntries dn files f fn hf hfn)

theorem discovery_complete_witness :
    ∃ t : RouteTable,
      buildRouteTable "index" experimentalFiles = Except.ok t ∧
      t.length = treeSize experimentalFiles ∧
      ∀ f ∈ experimentalFiles, ∀ fn ∈ f.fns,
        RouteTable.lookup t (derivePath "index" f.dirSegments fn.name) =
          some (mkDescriptor "index" f fn) :=
  discovery_complete "index" experimentalFiles (by decide) (by decide) (by decide)

/-- A scan over a tree with a failing file reports an error. -/
theorem scanEntries_err_of_badload (dn : String) (files : List RouteFile)
    (h : ∃ f ∈ files, f.loadOk = false) :
    ∃ e, scanEntries dn files = Except.error e := by
  induction files with
  | nil =>
    obtain ⟨f, hf, _⟩ := h
    cases hf
  | cons f rest ih =>
    by_cases hf : f.loadOk = true
    · obtain ⟨g, hg, hgbad⟩ := h
      rcases List.mem_cons.mp hg with rfl | hgr
      · rw [hf] at hgbad
        cases hgbad
      · obtain ⟨e, he⟩ := ih ⟨g, hgr, hgbad⟩
        exact ⟨e, by simp [scanEntries, discoverFile, hf, he]⟩
    · have hf' : f.loadOk = false := by
        cases hfb : f.loadOk
        · rfl
        · exact absurd hfb hf
      exact ⟨DiscoveryError.loadFailure f.dirSegments,
        by simp [scanEntries, discoverFile, hf']⟩

/-- C2: discovery over a tree in which two functions derive the same
path, or in which some route-source file fails to load, fails with a
`DiscoveryError` and produces no Route Table at all. -/
theorem discovery_aborts (dn : String) (files : List RouteFile)
    (h : ¬ (treePaths dn files).Nodup ∨ ∃ f ∈ files, f.loadOk = false) :
    ∃ e : DiscoveryError, buildRouteTable dn files = Except.error e := by
  by_cases hall : ∀ f ∈ files, f.loadOk = true
  · have hdup : ¬ (treePaths dn files).Nodup := by
      rcases h with hdup | ⟨f, hf, hbad⟩
      · exact hdup
      · rw [hall f hf] at hbad
        cases hbad
    have hscan := scanEntries_of_load dn files hall
    have hkeys : ¬ ((treeEntries dn files).map Prod.fst).Nodup := by
      rw [treeEntries_keys]
      exact hdup
    refine ⟨DiscoveryError.pathCollision, ?_⟩
    simp only [buildRouteTable, hscan]
    rw [if_neg hkeys]
  · push_neg at hall
    obtain ⟨f, hf, hbad⟩ := hall
    have hbad' : f.loadOk = false := by
      cases hfb : f.loadOk
      · rfl
      · exact absurd hfb hbad
    obtain ⟨e, he⟩ := scanEntries_err_of_badload dn files ⟨f, hf, hbad'⟩
    exact ⟨e, by simp only [buildRouteTable, he]⟩

/-- A tree whose index file defines the same remote function twice, so
two functions derive the same path. -/
def dupFiles : List RouteFile :=
  [{ dirSegments := [], loadOk := true, fns := [test_fn, test_fn] }]

theorem discovery_aborts_witness :
    ∃ e : DiscoveryError, buildRouteTable "index" dupFiles = Except.error e :=
  discovery_aborts "index" dupFiles (by decide)

/-- One lifecycle transition preserves the invariant that a stopped
server has no pending requests. -/
theorem lifecycleStep_invariant (s : ServerInstance) (e : ServerEvent)
    (h : s.state = LifecycleState.stopped → s.pending = []) :
    (lifecycleStep s e).state = LifecycleState.stopped →
      (lifecycleStep s e).pending = [] := by
  cases e with
  | accept rid =>
    simp only [lifecycleStep]
    split_ifs with hr
    · intro hst
      have hst' : s.state = LifecycleState.stopped := hst
      rw [hr] at hst'
      exact LifecycleState.noConfusion hst'
    · exact h
  | complete rid =>
    simp only [lifecycleStep]
    intro hst
    have hst' : s.state = LifecycleState.stopped := hst
    show s.pending.erase rid = []
    rw [h hst']
    rfl
  | stopRequest =>
    simp only [lifecycleStep]
    split_ifs with hr
    · intro hst
      exact hst.elim
    · exact h
  | finishStop =>
    simp only [lifecycleStep]
    split_ifs with hr
    · intro _
      exact hr.2
    · exact h

/-- C9: along any event trace, `join` returns exactly when the events
alone have driven the server to `stopped` (join performs no transition of
its own): at the return point the state is `stopped` and no request
accepted before the stop is still pending, and at every earlier point the
state was not `stopped` (the call blocks until the transition). -/
theorem join_blocks (evs : List ServerEvent) : ∀ s : ServerInstance,
    (s.state = LifecycleState.stopped → s.pending = []) →
    ∀ i : Nat, joinReturnsAt s evs = some i →
    (runEvents s (List.take i evs)).state = LifecycleState.stopped ∧
    (runEvents s (List.take i evs)).pending = [] ∧
    ∀ j, j < i → (runEvents s (List.take j evs)).state ≠ LifecycleState.stopped := by
  induction evs with
  | nil =>
    intro s hinv i hret
    rw [joinReturnsAt] at hret
    by_cases hs : s.state = LifecycleState.stopped
    · rw [if_pos hs] at hret
      injection hret with hi
      subst hi
      exact ⟨hs, hinv hs, fun j hj => absurd hj (Nat.not_lt_zero j)⟩
    · rw [if_neg hs] at hret
      exact Option.noConfusion hret
  | cons e rest ih =>
    intro s hinv i hret
    rw [joinReturnsAt] at hret
    by_cases hs : s.state = LifecycleState.stopped
    · rw [if_pos hs] at hret
      injection hret with hi
      subst hi
      exact ⟨hs, hinv hs, fun j hj => absurd hj (Nat.not_lt_zero j)⟩
    · rw [if_neg hs] at hret
      cases hmap : joinReturnsAt (lifecycleStep s e) rest with
      | none =>
        rw [hmap] at hret
        exact Option.noConfusion hret
      | some i₀ =>
        rw [hmap] at hret
        have hret' : some (i₀ + 1) = some i := hret
        injection hret' with hi
        subst hi
        obtain ⟨h1, h2, h3⟩ :=
          ih (lifecycleStep s e) (lifecycleStep_invariant s e hinv) i₀ hmap
        refine ⟨h1, h2, ?_⟩
        intro j hj
        cases j with
        | zero => exact hs
        | succ j' => exact h3 j' (Nat.lt_of_succ_lt_succ hj)

/-- A running server with no pending requests, joined below. -/
def joinSrv : ServerInstance :=
  { instanceId := 1, rootDir := "/", state := LifecycleState.running, pending := [] }

/-- A trace that accepts a request, requests stop, completes the request
and tears the listener down. -/
def joinTrace : List ServerEvent :=
  [ServerEvent.accept 7, ServerEvent.stopRequest, ServerEvent.complete 7,
    ServerEvent.finishStop]

theorem join_blocks_witness :
    (runEvents joinSrv (List.take 4 joinTrace)).state = LifecycleState.stopped ∧
    (runEvents joinSrv (List.take 4 joinTrace)).pending = [] ∧
    ∀ j, j < 4 →
      (runEvents joinSrv (List.take j joinTrace)).state ≠ LifecycleState.stopped :=
  join_blocks joinTrace joinSrv (by decide) 4 (by decide)

end FilebaseApi
